import Mathlib

/-!
Verification development for the chat-console repository's streaming-response
pipeline. The definitions below are shallow embeddings of the Python source:

* `ChatCli.generate_streaming_response` embeds the chunk-processing loop of
  `generate_streaming_response` in `app/utils.py` (lines 92-334).
* `ChatCli.OllamaGen.generate_stream` embeds the retry loop of
  `OllamaClient.generate_stream` in `app/api/ollama.py` (lines 161-255).
* `ChatCli.cancel_stream` embeds `OllamaClient.cancel_stream` (lines 257-262).
* `ChatCli.ollama_get_available_models` embeds
  `OllamaClient.get_available_models` (lines 57-109) and
  `ChatCli.anthropic_get_available_models` embeds
  `AnthropicClient.get_available_models` in `app/api/anthropic.py`.
* `ChatCli.run_generation_worker` embeds the worker body
  `run_generation_worker` in `app/main.py` (lines 928-1008).

Real time and the asyncio scheduler are abstracted by oracles: the flush-timer
test `current_time - last_update >= update_interval` becomes a boolean oracle
indexed by the iteration number, and task cancellation becomes an index at
which the cancellation check at the top of the loop body first observes the
cancelled state (once observed it stays observed, mirroring the fact that a
cancelled asyncio task is never un-cancelled within a turn).
-/

namespace ChatCli

/-- Ordered concatenation of a list of strings (Python `''.join`). -/
def joinS : List String → String
  | [] => ""
  | s :: rest => s ++ joinS rest

/-- String `a` is a prefix of string `b`: some suffix `t` extends `a` to `b`. -/
def Pfx (a b : String) : Prop := ∃ t, a ++ t = b

theorem Pfx.refl (a : String) : Pfx a a := ⟨"", String.append_empty a⟩

theorem Pfx.trans {a b c : String} (h1 : Pfx a b) (h2 : Pfx b c) : Pfx a c := by
  obtain ⟨t1, ht1⟩ := h1
  obtain ⟨t2, ht2⟩ := h2
  exact ⟨t1 ++ t2, by rw [← String.append_assoc, ht1, ht2]⟩

theorem Pfx.length_le {a b : String} (h : Pfx a b) : a.length ≤ b.length := by
  obtain ⟨t, ht⟩ := h
  subst ht
  rw [String.length_append]
  exact Nat.le_add_right _ _

theorem Pfx.append (a t : String) : Pfx a (a ++ t) := ⟨t, rfl⟩

theorem joinS_append (l1 l2 : List String) :
    joinS (l1 ++ l2) = joinS l1 ++ joinS l2 := by
  induction l1 with
  | nil => simp [joinS, String.empty_append]
  | cons s rest ih => simp [joinS, ih, String.append_assoc]

/-- State threaded through the chunk loop of `generate_streaming_response`:
the flushed accumulator `full_response`, the pending buffer of chunks, and the
history of arguments passed to the UI sink callback. -/
structure StreamState where
  full_response : String
  buffer : List String
  sinkCalls : List String
  deriving Repr, DecidableEq

/-- The initial loop state: `full_response = ""`, `buffer = []`, no sink call. -/
def initState : StreamState := ⟨"", [], []⟩

/-- One iteration body of the chunk loop (app/utils.py lines 246-274), for a
chunk that passed the cancellation check. An empty chunk is skipped by the
`if chunk:` truthiness test. Otherwise the chunk is appended to the buffer;
if the timer oracle fires (the Python test
`current_time - last_update >= update_interval`) or the joined buffer exceeds
100 characters, the buffer is concatenated onto `full_response`, the sink
callback receives the new `full_response`, and the buffer is cleared. -/
def processChunk (timerFires : Bool) (st : StreamState) (chunk : String) :
    StreamState :=
  if chunk = "" then st
  else if timerFires || decide ((joinS (st.buffer ++ [chunk])).length > 100) then
    { full_response := st.full_response ++ joinS (st.buffer ++ [chunk])
      buffer := []
      sinkCalls := st.sinkCalls ++
        [st.full_response ++ joinS (st.buffer ++ [chunk])] }
  else
    { st with buffer := st.buffer ++ [chunk] }

/-- The chunk loop run to exhaustion with no cancellation observed, starting
at iteration index `i`. -/
def streamFold (timer : Nat → Bool) : Nat → StreamState → List String → StreamState
  | _, st, [] => st
  | i, st, f :: rest => streamFold timer (i + 1) (processChunk (timer i) st f) rest

/-- Whether the cancellation check at the top of iteration `i` observes the
cancelled state: the task was cancelled at index `c` and `c ≤ i`. -/
def cancelObserved (cancelAt : Option Nat) (i : Nat) : Bool :=
  match cancelAt with
  | none => false
  | some c => decide (c ≤ i)

/-- The chunk loop of `generate_streaming_response` (app/utils.py lines
202-274). Each iteration first checks cancellation; on observing it, the loop
exits immediately without applying the current chunk (second component `true`).
Otherwise the chunk is processed and the loop continues. -/
def streamLoop (timer : Nat → Bool) (cancelAt : Option Nat) :
    Nat → StreamState → List String → StreamState × Bool
  | _, st, [] => (st, false)
  | i, st, f :: rest =>
    if cancelObserved cancelAt i then (st, true)
    else streamLoop timer cancelAt (i + 1) (processChunk (timer i) st f) rest

/-- The caller-observable result of one call of `generate_streaming_response`:
`returned` is the value the coroutine returns (`none` when an exception
propagates instead), `error` the propagated exception message, `cancelCalls`
how many times `client.cancel_stream()` was awaited, `sinkCalls` the arguments
passed to the UI callback in order, `streamOpened` whether
`client.generate_stream` was invoked, and `cancelled` whether the call ended
through the `asyncio.CancelledError` handler. -/
structure RunResult where
  returned : Option String
  error : Option String
  cancelCalls : Nat
  sinkCalls : List String
  streamOpened : Bool
  cancelled : Bool
  deriving Repr, DecidableEq

/-- Shallow embedding of `generate_streaming_response` (app/utils.py lines
92-334). `messages` only undergoes the emptiness check (the per-message repair
loop merely defaults missing dict keys, which a typed message list cannot
lack); that check precedes the `try` block, so its `ValueError` propagates.
The provider stream is modelled by the fragments `frags` it yields followed
by `streamErr`: `none` for normal exhaustion, `some e` for an exception
raised by the generator after all of `frags`. On cancellation the in-loop
branch awaits `cancel_stream` and raises `asyncio.CancelledError`, whose
handler awaits `cancel_stream` again and returns the accumulated
`full_response` (the unflushed buffer is dropped). On a generator error the
handler awaits `cancel_stream` once and executes `raise` — but the `finally`
block (lines 323-334) ends with `return full_response`, and a `return`
inside `finally` discards the in-flight exception in Python, so the call
returns the flushed accumulator normally and no error ever reaches the
caller (`full_response` is assigned at line 140, before the `try`, so the
`'full_response' in locals()` guard is always true). On normal exhaustion a
final flush empties any remaining buffer and `full_response` is returned. -/
def generate_streaming_response (messages : List (String × String))
    (frags : List String) (streamErr : Option String)
    (timer : Nat → Bool) (cancelAt : Option Nat) : RunResult :=
  if messages = [] then
    { returned := none, error := some "Messages list cannot be empty"
      cancelCalls := 0, sinkCalls := [], streamOpened := false
      cancelled := false }
  else if (streamLoop timer cancelAt 0 initState frags).2 then
    { returned := some (streamLoop timer cancelAt 0 initState frags).1.full_response
      error := none, cancelCalls := 2
      sinkCalls := (streamLoop timer cancelAt 0 initState frags).1.sinkCalls
      streamOpened := true, cancelled := true }
  else
    match streamErr with
    | some _ =>
      { returned := some (streamLoop timer cancelAt 0 initState frags).1.full_response
        error := none, cancelCalls := 1
        sinkCalls := (streamLoop timer cancelAt 0 initState frags).1.sinkCalls
        streamOpened := true, cancelled := false }
    | none =>
      if (streamLoop timer cancelAt 0 initState frags).1.buffer = [] then
        { returned := some (streamLoop timer cancelAt 0 initState frags).1.full_response
          error := none, cancelCalls := 0
          sinkCalls := (streamLoop timer cancelAt 0 initState frags).1.sinkCalls
          streamOpened := true, cancelled := false }
      else
        { returned := some ((streamLoop timer cancelAt 0 initState frags).1.full_response ++
            joinS (streamLoop timer cancelAt 0 initState frags).1.buffer)
          error := none, cancelCalls := 0
          sinkCalls := (streamLoop timer cancelAt 0 initState frags).1.sinkCalls ++
            [(streamLoop timer cancelAt 0 initState frags).1.full_response ++
              joinS (streamLoop timer cancelAt 0 initState frags).1.buffer]
          streamOpened := true, cancelled := false }

/-- One attempt of the `while retries >= 0` loop in
`OllamaClient.generate_stream` (app/api/ollama.py lines 173-253), as observed
from outside: the warmup probe, optional pull, connection and streaming either
end with the response stream exhausted normally after yielding `frags`
(`ok`), or some step raises after `frags` were already yielded (`failWith`).
An attempt that fails before the streaming loop simply has `frags = []`. -/
inductive OllamaAttempt where
  | ok (frags : List String)
  | failWith (frags : List String) (msg : String)
  deriving Repr, DecidableEq

namespace OllamaGen

/-- The retry loop of `OllamaClient.generate_stream`: run attempt number `i`;
on success the generator finishes after its yields; on failure, if `retries`
is zero the loop exits and `raise Exception(last_error)` fires, otherwise
`retries` is decremented and the whole body — warmup probe included — runs
again, yielding from the start of a fresh stream. The first component is the
full sequence of fragments yielded to the consumer across all attempts; the
second is the exception message raised at the end, if any. -/
def retryLoop (attempts : Nat → OllamaAttempt) (i : Nat) :
    Nat → List String × Option String
  | 0 =>
    match attempts i with
    | .ok frags => (frags, none)
    | .failWith frags msg => (frags, some msg)
  | retries + 1 =>
    match attempts i with
    | .ok frags => (frags, none)
    | .failWith frags _ =>
      let rest := retryLoop attempts (i + 1) retries
      (frags ++ rest.1, rest.2)

/-- Shallow embedding of `OllamaClient.generate_stream` (app/api/ollama.py
lines 161-255): the loop starts with `retries = 2`, so up to three attempts
run within one call. -/
def generate_stream (attempts : Nat → OllamaAttempt) :
    List String × Option String :=
  retryLoop attempts 0 2

end OllamaGen

/-- Shallow embedding of `OllamaClient.cancel_stream` (app/api/ollama.py lines
257-262), acting on the client's `_active_stream_session` handle (a session
identified here by a number). It returns the new handle value together with
whether a session close was performed; the Python method body raises nothing
and always returns normally. -/
def cancel_stream : Option Nat → Option Nat × Bool
  | some _ => (none, true)
  | none => (none, false)

/-- One entry of the parsed `data["models"]` array in the Ollama `/api/tags`
response: `none` stands for an entry that is not a dict or lacks a `"name"`
key (skipped by the source loop), `some (name, tags)` for a valid entry. -/
def OllamaTagEntry : Type := Option (String × List String)

/-- The transport-level outcome of the `/api/tags` request performed by
`OllamaClient.get_available_models`, matching the except-clauses of the
source: a successful well-shaped response carrying the entries, a connection
failure (`aiohttp.ClientConnectorError`), a timeout (`aiohttp.ClientTimeout`),
another client error (`aiohttp.ClientError`), or any other failure (including
a malformed response shape, whose raise is caught by the final
`except Exception` clause). -/
inductive OllamaTransport where
  | ok (entries : List OllamaTagEntry)
  | connectorError
  | timeoutError
  | clientError (msg : String)
  | otherError (msg : String)

/-- A model record produced by a client's model-listing call: the `id`,
display `name`, and `tags` fields of the dicts the source builds. -/
structure ModelRec where
  id : String
  name : String
  tags : List String
  deriving Repr, DecidableEq

/-- Shallow embedding of `OllamaClient.get_available_models` (app/api/ollama.py
lines 57-109). `pyTitle` abstracts Python's `str.title()` applied to the
display name. On success invalid entries are skipped and the rest mapped to
records; every failure branch raises an `Exception` whose message is built
exactly as in the source, so the error propagates to the caller. -/
def ollama_get_available_models (pyTitle : String → String) (baseUrl : String)
    (t : OllamaTransport) : Except String (List ModelRec) :=
  match t with
  | .ok entries =>
    .ok (entries.filterMap (fun e =>
      match e with
      | none => none
      | some (nm, tags) => some ⟨nm, pyTitle nm, tags⟩))
  | .connectorError =>
    .error ("Could not connect to Ollama server at " ++ baseUrl ++
      ". Please ensure Ollama is running and the URL is correct.")
  | .timeoutError =>
    .error ("Connection to Ollama server at " ++ baseUrl ++
      " timed out after 5 seconds. The server might be busy or unresponsive.")
  | .clientError msg => .error ("Ollama API error: " ++ msg)
  | .otherError msg => .error ("Unexpected error getting models: " ++ msg)

/-- Shallow embedding of `AnthropicClient.get_available_models`
(app/api/anthropic.py lines 116-123): a static catalog returned
unconditionally, with no network request at all. -/
def anthropic_get_available_models : List (String × String) :=
  [("claude-3-opus", "Claude 3 Opus"),
   ("claude-3-sonnet", "Claude 3 Sonnet"),
   ("claude-3-haiku", "Claude 3 Haiku"),
   ("claude-3.7-sonnet", "Claude 3.7 Sonnet")]

/-- How the awaited `generate_streaming_response` call ends from the point of
view of `run_generation_worker` in app/main.py: a normal return carrying the
full response, an `asyncio.CancelledError` raised at the await point when the
worker task is cancelled by the escape-key handler, or any other exception. -/
inductive WorkerExit where
  | completedWith (full : String)
  | cancelledExit
  | failedWith (err : String)
  deriving Repr, DecidableEq

/-- An observable action performed by `run_generation_worker` (app/main.py
lines 928-1008), in program order: persisting a message via
`self.db.add_message`, a `self.notify` toast, popping the placeholder
assistant message from `self.messages`, appending an error message to
`self.messages`, UI redraw calls, and the individual steps of the `finally`
block (clearing `is_generating`, clearing `current_generation_task`,
cancelling and clearing the loading-animation task, hiding the loading
indicator, and focusing the input). -/
inductive WEvent where
  | dbAddMessage (role content : String)
  | notify (msg : String)
  | popLastMessage
  | appendUiMessage (content : String)
  | updateMessagesUi
  | refreshUi
  | setIsGeneratingFalse
  | clearTaskRef
  | cancelAnimTask
  | clearAnimRef
  | hideLoading
  | focusInput
  deriving Repr, DecidableEq

/-- Shallow embedding of the worker body `run_generation_worker` (app/main.py
lines 928-1008) as the ordered list of observable actions it performs.
`isGenerating` is the value of `self.is_generating` when the awaited call
returns (the escape-key handler leaves it `true`; only the `finally` block
clears it), `lastIsAssistant` whether `self.messages` ends with an assistant
message, and `animActive` whether the loading-animation task is still
running when the `finally` block executes. The `finally` suffix runs on every
path, exactly as a Python `try/except/finally` does. -/
def run_generation_worker (isGenerating : Bool) (lastIsAssistant : Bool)
    (animActive : Bool) (ex : WorkerExit) : List WEvent :=
  (match ex with
   | .completedWith full =>
     (if isGenerating && !(full == "") then
        [.dbAddMessage "assistant" full]
      else []) ++ [.refreshUi]
   | .cancelledExit =>
     (if lastIsAssistant then [.popLastMessage] else []) ++
       [.updateMessagesUi, .notify "Generation stopped by user"]
   | .failedWith err =>
     [.notify ("Generation error: " ++ err)] ++
       (if lastIsAssistant then [.popLastMessage] else []) ++
       [.appendUiMessage ("Error: " ++ err), .updateMessagesUi]) ++
  ([.setIsGeneratingFalse, .clearTaskRef] ++
    (if animActive then [.cancelAnimTask] else []) ++
    [.clearAnimRef, .hideLoading, .refreshUi, .focusInput])

/-- Whether an event is a persistence call (`self.db.add_message`). -/
def isDbAdd : WEvent → Bool
  | .dbAddMessage _ _ => true
  | _ => false

/-- The text accumulated by a loop state: the flushed part followed by the
still-buffered part. -/
def acc (st : StreamState) : String := st.full_response ++ joinS st.buffer

theorem acc_processChunk (b : Bool) (st : StreamState) (c : String) :
    acc (processChunk b st c) = acc st ++ c := by
  unfold processChunk
  by_cases hc : c = ""
  · simp [hc, acc, String.append_empty]
  · rw [if_neg hc]
    split <;>
      simp [acc, joinS, joinS_append, String.append_empty, String.append_assoc]

theorem acc_streamFold (timer : Nat → Bool) (l : List String) :
    ∀ (i : Nat) (st : StreamState),
      acc (streamFold timer i st l) = acc st ++ joinS l := by
  induction l with
  | nil => intro i st; simp [streamFold, joinS, String.append_empty]
  | cons f rest ih =>
    intro i st
    simp only [streamFold, ih, acc_processChunk, joinS, String.append_assoc]

theorem acc_initState : acc initState = "" := by
  simp [acc, initState, joinS, String.append_empty]

/-- With no cancellation ever observed, the loop is the plain fold. -/
theorem streamLoop_none (timer : Nat → Bool) (l : List String) :
    ∀ (i : Nat) (st : StreamState),
      streamLoop timer none i st l = (streamFold timer i st l, false) := by
  induction l with
  | nil => intro i st; rfl
  | cons f rest ih =>
    intro i st
    simp [streamLoop, streamFold, cancelObserved, ih]

/-- If the cancellation flag is set at index `i + pre.length`, the loop applies
exactly the fragments of `pre` and then exits through the cancellation branch,
independently of the current fragment and of everything after it. -/
theorem streamLoop_cancel (timer : Nat → Bool) (pre : List String) :
    ∀ (i : Nat) (st : StreamState) (f : String) (rest : List String),
      streamLoop timer (some (i + pre.length)) i st (pre ++ f :: rest) =
        (streamFold timer i st pre, true) := by
  induction pre with
  | nil =>
    intro i st f rest
    simp [streamLoop, streamFold, cancelObserved]
  | cons p pre' ih =>
    intro i st f rest
    have hobs : cancelObserved (some (i + (p :: pre').length)) i = false := by
      simp only [cancelObserved, List.length_cons, decide_eq_false_iff_not]
      omega
    simp only [List.cons_append, streamLoop, hobs, if_false, streamFold]
    have harith : i + (p :: pre').length = (i + 1) + pre'.length := by
      simp [List.length_cons]; omega
    rw [harith]
    exact ih (i + 1) (processChunk (timer i) st p) f rest

/-- Invariant of the chunk loop relating the sink-call history to the flushed
accumulator: every argument ever passed to the sink is a prefix of the current
`full_response`, and consecutive sink arguments extend one another. -/
def SinkInv (st : StreamState) : Prop :=
  (∀ s ∈ st.sinkCalls, Pfx s st.full_response) ∧ List.Chain' Pfx st.sinkCalls

/-- Appending one more sink argument that extends the current accumulator
preserves the invariant shape. -/
theorem sinkInv_push {calls : List String} {full ext : String}
    (h1 : ∀ s ∈ calls, Pfx s full) (h2 : List.Chain' Pfx calls) :
    (∀ s ∈ calls ++ [full ++ ext], Pfx s (full ++ ext)) ∧
      List.Chain' Pfx (calls ++ [full ++ ext]) := by
  constructor
  · intro s hs
    rcases List.mem_append.mp hs with h | h
    · exact (h1 s h).trans (Pfx.append full ext)
    · rcases List.mem_singleton.mp h with rfl
      exact Pfx.refl _
  · rw [List.chain'_append]
    refine ⟨h2, List.chain'_singleton _, ?_⟩
    intro x hx y hy
    rcases List.mem_getLast?_eq_getLast hx with ⟨hne, rfl⟩
    rcases Option.mem_def.mp hy with hy'
    simp only [List.head?_cons, Option.some.injEq] at hy'
    subst hy'
    exact (h1 _ (List.getLast_mem hne)).trans (Pfx.append full ext)

theorem sinkInv_processChunk (b : Bool) (st : StreamState) (c : String)
    (h : SinkInv st) : SinkInv (processChunk b st c) := by
  unfold processChunk
  by_cases hc : c = ""
  · simpa [hc] using h
  · rw [if_neg hc]
    split
    · exact sinkInv_push h.1 h.2
    · exact h

theorem sinkInv_streamFold (timer : Nat → Bool) (l : List String) :
    ∀ (i : Nat) (st : StreamState), SinkInv st →
      SinkInv (streamFold timer i st l) := by
  induction l with
  | nil => intro i st h; exact h
  | cons f rest ih =>
    intro i st h
    exact ih (i + 1) _ (sinkInv_processChunk (timer i) st f h)

theorem sinkInv_streamLoop (timer : Nat → Bool) (cancelAt : Option Nat)
    (l : List String) :
    ∀ (i : Nat) (st : StreamState), SinkInv st →
      SinkInv (streamLoop timer cancelAt i st l).1 := by
  induction l with
  | nil => intro i st h; exact h
  | cons f rest ih =>
    intro i st h
    simp only [streamLoop]
    by_cases hobs : cancelObserved cancelAt i = true
    · simpa [hobs] using h
    · simp only [Bool.not_eq_true] at hobs
      simpa [hobs] using ih (i + 1) _ (sinkInv_processChunk (timer i) st f h)

theorem sinkInv_initState : SinkInv initState := by
  constructor
  · intro s hs; simp [initState] at hs
  · simp [initState]

/-- The flushed accumulator is always a prefix of the full accumulated text. -/
theorem full_pfx_acc (st : StreamState) : Pfx st.full_response (acc st) :=
  Pfx.append _ _

theorem acc_streamFold_init (timer : Nat → Bool) (frags : List String) :
    acc (streamFold timer 0 initState frags) = joinS frags := by
  rw [acc_streamFold, acc_initState, String.empty_append]

/-- C1: for every finite fragment sequence, with no cancellation observed and
the provider stream exhausted normally, `generate_streaming_response` returns
the ordered concatenation `f1 ++ f2 ++ ... ++ fn` of the fragments exactly —
no fragment applied twice, none skipped — with no error, no cancellation exit
and no `cancel_stream` call. -/
theorem generate_streaming_response_completed_eq_concat
    (messages : List (String × String)) (frags : List String)
    (timer : Nat → Bool) (h : messages ≠ []) :
    (generate_streaming_response messages frags none timer none).returned =
        some (joinS frags) ∧
      (generate_streaming_response messages frags none timer none).error = none ∧
      (generate_streaming_response messages frags none timer none).cancelled =
        false ∧
      (generate_streaming_response messages frags none timer none).cancelCalls =
        0 := by
  have hloop := streamLoop_none timer frags 0 initState
  have hacc := acc_streamFold_init timer frags
  unfold generate_streaming_response
  rw [if_neg h]
  by_cases hb : (streamFold timer 0 initState frags).buffer = []
  · have hfull : (streamFold timer 0 initState frags).full_response =
        joinS frags := by
      rw [← hacc, acc, hb, joinS, String.append_empty]
    simp [hloop, hb, hfull]
  · have hfull : (streamFold timer 0 initState frags).full_response ++
        joinS (streamFold timer 0 initState frags).buffer = joinS frags := hacc
    simp [hloop, hb, hfull]

/-- Witness for C1 at Scenario A: fragments "Hel", "lo, ", "world!" with a
timer that always fires produce Completed("Hello, world!"). -/
theorem generate_streaming_response_completed_eq_concat_witness :
    (generate_streaming_response [("user", "hi")] ["Hel", "lo, ", "world!"]
          none (fun _ => true) none).returned = some "Hello, world!" ∧
      (generate_streaming_response [("user", "hi")] ["Hel", "lo, ", "world!"]
          none (fun _ => true) none).error = none ∧
      (generate_streaming_response [("user", "hi")] ["Hel", "lo, ", "world!"]
          none (fun _ => true) none).cancelled = false ∧
      (generate_streaming_response [("user", "hi")] ["Hel", "lo, ", "world!"]
          none (fun _ => true) none).cancelCalls = 0 := by
  have h := generate_streaming_response_completed_eq_concat
    [("user", "hi")] ["Hel", "lo, ", "world!"] (fun _ => true) (by decide)
  have hj : joinS ["Hel", "lo, ", "world!"] = "Hello, world!" := by decide
  rw [hj] at h
  exact h

/-- C10: with an empty message list, `generate_streaming_response` raises
`ValueError("Messages list cannot be empty")` before opening any provider
stream and before invoking the sink callback even once. -/
theorem generate_streaming_response_rejects_empty_messages
    (frags : List String) (streamErr : Option String) (timer : Nat → Bool)
    (cancelAt : Option Nat) :
    generate_streaming_response [] frags streamErr timer cancelAt =
      { returned := none, error := some "Messages list cannot be empty"
        cancelCalls := 0, sinkCalls := [], streamOpened := false
        cancelled := false } := by
  rfl

/-- Counterexample to C2 as stated: fragments "a","b","c","d" with the
cancellation flag observed right before fragment index 2 — i.e. after "a" and
"b" were applied — and a flush timer that never fires. The code returns the
flushed accumulator, which is still empty, so the Cancelled partial text is
"" and not "ab" as the claim requires. -/
theorem cancelled_partial_is_flushed_only_counterexample :
    (generate_streaming_response [("user", "hi")] ["a", "b", "c", "d"] none
          (fun _ => false) (some 2)).cancelled = true ∧
      (generate_streaming_response [("user", "hi")] ["a", "b", "c", "d"] none
          (fun _ => false) (some 2)).returned = some "" ∧
      (generate_streaming_response [("user", "hi")] ["a", "b", "c", "d"] none
          (fun _ => false) (some 2)).returned ≠ some "ab" := by
  refine ⟨by decide, by decide, by decide⟩

/-- C2 amended: if the cancellation flag is observed after fragment `k` was
applied and before fragment `k + 1` is applied, the assembler exits through
the cancellation path; its partial text is the flushed accumulator — a prefix
of `f1 ++ ... ++ fk` (still-buffered text is dropped) — every sink call was a
prefix of `f1 ++ ... ++ fk`, and fragments `k + 1` and later are never
applied and never reach the sink (the result does not depend on them at
all). Here `pre` is the list `f1..fk` and `f :: rest` the fragments from
`k + 1` on. -/
theorem cancelled_partial_is_flushed_only
    (messages : List (String × String)) (h : messages ≠ [])
    (timer : Nat → Bool) (pre : List String) (f : String) (rest : List String)
    (streamErr : Option String) :
    (generate_streaming_response messages (pre ++ f :: rest) streamErr timer
        (some pre.length)).cancelled = true ∧
      (generate_streaming_response messages (pre ++ f :: rest) streamErr timer
          (some pre.length)).returned =
        some (streamFold timer 0 initState pre).full_response ∧
      Pfx (streamFold timer 0 initState pre).full_response (joinS pre) ∧
      (∀ s ∈ (generate_streaming_response messages (pre ++ f :: rest) streamErr
          timer (some pre.length)).sinkCalls, Pfx s (joinS pre)) ∧
      (∀ (g : String) (rest' : List String) (err' : Option String),
        generate_streaming_response messages (pre ++ g :: rest') err' timer
            (some pre.length) =
          generate_streaming_response messages (pre ++ f :: rest) streamErr
            timer (some pre.length)) := by
  have hloop : ∀ (g : String) (rest' : List String),
      streamLoop timer (some pre.length) 0 initState (pre ++ g :: rest') =
        (streamFold timer 0 initState pre, true) := by
    intro g rest'
    have := streamLoop_cancel timer pre 0 initState g rest'
    simpa using this
  have hfoldpfx : Pfx (streamFold timer 0 initState pre).full_response
      (joinS pre) := by
    rw [← acc_streamFold_init timer pre]
    exact full_pfx_acc _
  have hsink : ∀ s ∈ (streamFold timer 0 initState pre).sinkCalls,
      Pfx s (joinS pre) := by
    intro s hs
    have hinv := sinkInv_streamFold timer pre 0 initState sinkInv_initState
    exact (hinv.1 s hs).trans hfoldpfx
  have hrun : ∀ (g : String) (rest' : List String) (err' : Option String),
      generate_streaming_response messages (pre ++ g :: rest') err' timer
          (some pre.length) =
        { returned := some (streamFold timer 0 initState pre).full_response
          error := none, cancelCalls := 2
          sinkCalls := (streamFold timer 0 initState pre).sinkCalls
          streamOpened := true, cancelled := true } := by
    intro g rest' err'
    unfold generate_streaming_response
    rw [if_neg h]
    simp [hloop]
  refine ⟨?_, ?_, hfoldpfx, ?_, ?_⟩
  · rw [hrun]
  · rw [hrun]
  · rw [hrun]; exact hsink
  · intro g rest' err'
    rw [hrun, hrun]

/-- Witness for C2 amended: fragments "a","b","c","d", timer firing on every
iteration, cancellation observed before fragment index 2: the call exits
Cancelled with partial text "ab" (both fragments were flushed here), the sink
only ever saw prefixes of "ab", and "c","d" were never applied. -/
theorem cancelled_partial_is_flushed_only_witness :
    (generate_streaming_response [("user", "hi")] (["a", "b"] ++ "c" :: ["d"])
        none (fun _ => true) (some 2)).cancelled = true ∧
      (generate_streaming_response [("user", "hi")] (["a", "b"] ++ "c" :: ["d"])
          none (fun _ => true) (some 2)).returned =
        some (streamFold (fun _ => true) 0 initState ["a", "b"]).full_response ∧
      Pfx (streamFold (fun _ => true) 0 initState ["a", "b"]).full_response
        (joinS ["a", "b"]) ∧
      (∀ s ∈ (generate_streaming_response [("user", "hi")]
          (["a", "b"] ++ "c" :: ["d"]) none (fun _ => true)
          (some 2)).sinkCalls, Pfx s (joinS ["a", "b"])) ∧
      (∀ (g : String) (rest' : List String) (err' : Option String),
        generate_streaming_response [("user", "hi")] (["a", "b"] ++ g :: rest')
            err' (fun _ => true) (some 2) =
          generate_streaming_response [("user", "hi")]
            (["a", "b"] ++ "c" :: ["d"]) none (fun _ => true) (some 2)) := by
  have h := cancelled_partial_is_flushed_only [("user", "hi")] (by decide)
    (fun _ => true) ["a", "b"] "c" ["d"] none
  simpa using h

/-- C3, behavior of the code at the claim's Scenario C input: the provider
stream yields "partial" (flushed to the sink) and then raises a transport
error. The unwind does await `cancel_stream` exactly once, but the
re-raise in the `except` handler is defeated by the `return full_response`
inside the `finally` block, which discards the in-flight exception: the call
returns the flushed text "partial" as a normal value and no error reaches
the caller, so no Failed outcome is ever produced — contradicting both the
claim and the code's own comment "Re-raise the exception for the worker
runner to handle". -/
theorem stream_error_swallowed_by_finally_return :
    generate_streaming_response [("user", "hi")] ["partial"]
        (some "transport error") (fun _ => true) none =
      { returned := some "partial", error := none, cancelCalls := 1
        sinkCalls := ["partial"], streamOpened := true
        cancelled := false } := by
  decide

/-- C6: whenever a turn produces a final text (normal completion or the
cancellation return), every argument the UI sink callback received is a
prefix of that final text, consecutive sink arguments extend one another, and
their lengths are non-decreasing: the sink is never called with a shorter
string after a longer one was shown. -/
theorem ui_sink_receives_monotone_prefixes
    (messages : List (String × String)) (frags : List String)
    (streamErr : Option String) (timer : Nat → Bool) (cancelAt : Option Nat)
    (final : String)
    (h : (generate_streaming_response messages frags streamErr timer
        cancelAt).returned = some final) :
    (∀ s ∈ (generate_streaming_response messages frags streamErr timer
        cancelAt).sinkCalls, Pfx s final) ∧
      List.Chain' Pfx (generate_streaming_response messages frags streamErr
        timer cancelAt).sinkCalls ∧
      List.Chain' (fun a b => a.length ≤ b.length)
        (generate_streaming_response messages frags streamErr timer
          cancelAt).sinkCalls := by
  by_cases hm : messages = []
  · exfalso
    unfold generate_streaming_response at h
    rw [if_pos hm] at h
    simp at h
  · have hinv : SinkInv (streamLoop timer cancelAt 0 initState frags).1 :=
      sinkInv_streamLoop timer cancelAt frags 0 initState sinkInv_initState
    unfold generate_streaming_response at h ⊢
    rw [if_neg hm] at h ⊢
    by_cases hl : (streamLoop timer cancelAt 0 initState frags).2 = true
    · rw [if_pos hl] at h ⊢
      have hf : final =
          (streamLoop timer cancelAt 0 initState frags).1.full_response := by
        simpa using h.symm
      subst hf
      exact ⟨hinv.1, hinv.2, hinv.2.imp fun a b hp => hp.length_le⟩
    · rw [if_neg hl] at h ⊢
      cases streamErr with
      | some e =>
        have hf : final =
            (streamLoop timer cancelAt 0 initState frags).1.full_response := by
          simpa using h.symm
        subst hf
        exact ⟨hinv.1, hinv.2, hinv.2.imp fun a b hp => hp.length_le⟩
      | none =>
        by_cases hb :
            (streamLoop timer cancelAt 0 initState frags).1.buffer = []
        · rw [if_pos hb] at h ⊢
          have hf : final =
              (streamLoop timer cancelAt 0 initState frags).1.full_response := by
            simpa using h.symm
          subst hf
          exact ⟨hinv.1, hinv.2, hinv.2.imp fun a b hp => hp.length_le⟩
        · rw [if_neg hb] at h ⊢
          have hf : final =
              (streamLoop timer cancelAt 0 initState frags).1.full_response ++
                joinS (streamLoop timer cancelAt 0 initState frags).1.buffer := by
            simpa using h.symm
          subst hf
          have hp := @sinkInv_push _ _
            (joinS (streamLoop timer cancelAt 0 initState frags).1.buffer)
            hinv.1 hinv.2
          exact ⟨hp.1, hp.2, hp.2.imp fun a b hq => hq.length_le⟩

/-- Witness for C6: fragments "Hel", "lo" with a timer that always fires
complete with final text "Hello"; the sink-call history satisfies all three
monotonicity properties there. -/
theorem ui_sink_receives_monotone_prefixes_witness :
    (∀ s ∈ (generate_streaming_response [("user", "hi")] ["Hel", "lo"] none
        (fun _ => true) none).sinkCalls, Pfx s "Hello") ∧
      List.Chain' Pfx (generate_streaming_response [("user", "hi")]
        ["Hel", "lo"] none (fun _ => true) none).sinkCalls ∧
      List.Chain' (fun a b => a.length ≤ b.length)
        (generate_streaming_response [("user", "hi")] ["Hel", "lo"] none
          (fun _ => true) none).sinkCalls :=
  ui_sink_receives_monotone_prefixes [("user", "hi")] ["Hel", "lo"] none
    (fun _ => true) none "Hello" (by decide)

theorem retryLoop_ok {attempts : Nat → OllamaAttempt} {i : Nat}
    {frags : List String} (h : attempts i = .ok frags) (r : Nat) :
    OllamaGen.retryLoop attempts i r = (frags, none) := by
  cases r <;> simp [OllamaGen.retryLoop, h]

theorem retryLoop_fail_zero {attempts : Nat → OllamaAttempt} {i : Nat}
    {frags : List String} {msg : String} (h : attempts i = .failWith frags msg) :
    OllamaGen.retryLoop attempts i 0 = (frags, some msg) := by
  simp [OllamaGen.retryLoop, h]

theorem retryLoop_fail_succ {attempts : Nat → OllamaAttempt} {i : Nat}
    {frags : List String} {msg : String} (h : attempts i = .failWith frags msg)
    (r : Nat) :
    OllamaGen.retryLoop attempts i (r + 1) =
      ((frags ++ (OllamaGen.retryLoop attempts (i + 1) r).1),
        (OllamaGen.retryLoop attempts (i + 1) r).2) := by
  simp [OllamaGen.retryLoop, h]

/-- Counterexample to C5 as stated: the first streaming attempt yields "a"
and then fails mid-stream; the Ollama client retries within the same call,
re-opens the stream, and the second attempt re-yields "a" before "b". The
consumer therefore observes the duplicated fragment sequence "a","a","b" and
the call ends without any failure — the mid-stream failure neither terminated
the turn with a Failed outcome nor prevented re-yielding from the beginning. -/
theorem ollama_stream_retries_midstream_counterexample :
    OllamaGen.generate_stream (fun i =>
        if i = 0 then .failWith ["a"] "connection reset by peer"
        else .ok ["a", "b"]) = (["a", "a", "b"], none) ∧
      (OllamaGen.generate_stream (fun i =>
        if i = 0 then .failWith ["a"] "connection reset by peer"
        else .ok ["a", "b"])).2 ≠
        some "connection reset by peer" := by
  refine ⟨by decide, by decide⟩

/-- C5 amended: `OllamaClient.generate_stream` retries a failed streaming
attempt up to two times within the same call (the loop starts with
`retries = 2`), re-opening the stream and re-yielding fragments from the
beginning, even when the failed attempt had already yielded fragments; the
call raises the last error only after three consecutive attempts fail, and
the fragments of every attempt — including failed ones — are all yielded to
the consumer in order. -/
theorem ollama_stream_retries_midstream :
    (∀ (attempts : Nat → OllamaAttempt) (f1 : List String) (m1 : String)
        (f2 : List String),
      attempts 0 = .failWith f1 m1 → attempts 1 = .ok f2 →
        OllamaGen.generate_stream attempts = (f1 ++ f2, none)) ∧
      (∀ (attempts : Nat → OllamaAttempt) (f1 : List String) (m1 : String)
          (f2 : List String) (m2 : String) (f3 : List String) (m3 : String),
        attempts 0 = .failWith f1 m1 → attempts 1 = .failWith f2 m2 →
          attempts 2 = .failWith f3 m3 →
          OllamaGen.generate_stream attempts =
            (f1 ++ (f2 ++ f3), some m3)) := by
  constructor
  · intro attempts f1 m1 f2 h1 h2
    show OllamaGen.retryLoop attempts 0 (1 + 1) = _
    rw [retryLoop_fail_succ h1, retryLoop_ok h2]
  · intro attempts f1 m1 f2 m2 f3 m3 h1 h2 h3
    show OllamaGen.retryLoop attempts 0 (1 + 1) = _
    rw [retryLoop_fail_succ h1, retryLoop_fail_succ h2, retryLoop_fail_zero h3]

/-- Witness for C5 amended: both parts applied at concrete attempt
schedules. -/
theorem ollama_stream_retries_midstream_witness :
    OllamaGen.generate_stream (fun i =>
        if i = 0 then .failWith ["a"] "reset" else .ok ["a", "b"]) =
      (["a"] ++ ["a", "b"], none) ∧
      OllamaGen.generate_stream (fun i =>
          if i = 0 then .failWith ["x"] "e1"
          else if i = 1 then .failWith ["x", "y"] "e2"
          else .failWith [] "e3") =
        (["x"] ++ (["x", "y"] ++ []), some "e3") :=
  ⟨ollama_stream_retries_midstream.1 _ ["a"] "reset" ["a", "b"]
      (by decide) (by decide),
    ollama_stream_retries_midstream.2 _ ["x"] "e1" ["x", "y"] "e2" [] "e3"
      (by decide) (by decide) (by decide)⟩

/-- C7: `cancel_stream` is idempotent — after any first call the active
session handle is `none`, a second call in a row closes nothing and changes
nothing, and a call with no active stream is a no-op; the method body always
returns normally. -/
theorem cancel_stream_idempotent :
    (∀ st : Option Nat, cancel_stream (cancel_stream st).1 = (none, false)) ∧
      cancel_stream none = (none, false) ∧
      (∀ st : Option Nat, (cancel_stream st).1 = none) := by
  refine ⟨?_, rfl, ?_⟩ <;> intro st <;> cases st <;> rfl

/-- Counterexample to C9 as stated: a connection failure during
`OllamaClient.get_available_models` is propagated to the caller as an
exception, not replaced by a static fallback catalog. -/
theorem ollama_model_listing_propagates_failure_counterexample :
    ollama_get_available_models id "http://localhost:11434" .connectorError =
      .error ("Could not connect to Ollama server at http://localhost:11434" ++
        ". Please ensure Ollama is running and the URL is correct.") := by
  rfl

/-- C9 amended: the Anthropic client's model listing is a static catalog
returned unconditionally (it performs no request that could fail), but the
Ollama client's `get_available_models` propagates every transport failure to
the caller as an error instead of returning a fallback catalog. -/
theorem model_listing_failure_behavior :
    (∀ (pyTitle : String → String) (baseUrl : String) (t : OllamaTransport),
      (∀ entries, t ≠ .ok entries) →
        ∃ msg, ollama_get_available_models pyTitle baseUrl t = .error msg) ∧
      anthropic_get_available_models =
        [("claude-3-opus", "Claude 3 Opus"),
         ("claude-3-sonnet", "Claude 3 Sonnet"),
         ("claude-3-haiku", "Claude 3 Haiku"),
         ("claude-3.7-sonnet", "Claude 3.7 Sonnet")] := by
  refine ⟨?_, rfl⟩
  intro pyTitle baseUrl t ht
  cases t with
  | ok entries => exact absurd rfl (ht entries)
  | connectorError => exact ⟨_, rfl⟩
  | timeoutError => exact ⟨_, rfl⟩
  | clientError m => exact ⟨_, rfl⟩
  | otherError m => exact ⟨_, rfl⟩

/-- Witness for C9 amended, at a connection failure with the default base
URL. -/
theorem model_listing_failure_behavior_witness :
    (∃ msg, ollama_get_available_models id "http://localhost:11434"
        .connectorError = .error msg) ∧
      anthropic_get_available_models =
        [("claude-3-opus", "Claude 3 Opus"),
         ("claude-3-sonnet", "Claude 3 Sonnet"),
         ("claude-3-haiku", "Claude 3 Haiku"),
         ("claude-3.7-sonnet", "Claude 3.7 Sonnet")] :=
  ⟨model_listing_failure_behavior.1 id "http://localhost:11434"
      .connectorError (fun entries h => by cases h),
    model_listing_failure_behavior.2⟩

/-- Counterexample to C4 as stated: when the turn ends in Failed, the worker
shows the error string in the UI but never calls `db.add_message` — the
failure is not persisted, contrary to the claim's "exactly once with a
human-readable error string". -/
theorem db_persisted_per_terminal_state_counterexample :
    (run_generation_worker true true true (.failedWith "boom")).countP
        isDbAdd = 0 ∧
      WEvent.appendUiMessage "Error: boom" ∈
        run_generation_worker true true true (.failedWith "boom") := by
  refine ⟨by decide, by decide⟩

/-- C4 amended: the worker calls `db.add_message` for the assistant reply
exactly once when the turn completes with a non-empty response while
`is_generating` is still set — persisting exactly that response — and never
when the turn ends cancelled or failed; on failure the error string is
appended to the UI message list only. -/
theorem db_persisted_per_terminal_state
    (lastA animA g : Bool) (full err : String) (hfull : full ≠ "") :
    (run_generation_worker true lastA animA (.completedWith full)).countP
        isDbAdd = 1 ∧
      WEvent.dbAddMessage "assistant" full ∈
        run_generation_worker true lastA animA (.completedWith full) ∧
      (run_generation_worker g lastA animA .cancelledExit).countP isDbAdd =
        0 ∧
      (run_generation_worker g lastA animA (.failedWith err)).countP isDbAdd =
        0 ∧
      WEvent.appendUiMessage ("Error: " ++ err) ∈
        run_generation_worker g lastA animA (.failedWith err) := by
  have hb : (full == "") = false := by
    simpa using hfull
  cases lastA <;> cases animA <;> cases g <;>
    simp [run_generation_worker, isDbAdd, hb, List.countP_append,
      List.countP_cons, List.countP_nil]

/-- Witness for C4 amended at a concrete completed response and a concrete
error. -/
theorem db_persisted_per_terminal_state_witness :
    (run_generation_worker true true true
        (.completedWith "Hello, world!")).countP isDbAdd = 1 ∧
      WEvent.dbAddMessage "assistant" "Hello, world!" ∈
        run_generation_worker true true true (.completedWith "Hello, world!") ∧
      (run_generation_worker true true true .cancelledExit).countP isDbAdd =
        0 ∧
      (run_generation_worker true true true (.failedWith "boom")).countP
        isDbAdd = 0 ∧
      WEvent.appendUiMessage ("Error: " ++ "boom") ∈
        run_generation_worker true true true (.failedWith "boom") :=
  db_persisted_per_terminal_state true true true "Hello, world!" "boom"
    (by decide)

/-- C8: on every path through the worker — Completed, Cancelled and Failed
alike — the `finally` block's cleanup runs exactly once: the `is_generating`
flag is cleared once, the current task reference is cleared once, the loading
indicator is hidden once, and focus is returned to the input once. -/
theorem worker_cleanup_runs_exactly_once
    (g lastA animA : Bool) (ex : WorkerExit) :
    (run_generation_worker g lastA animA ex).countP
        (· == WEvent.setIsGeneratingFalse) = 1 ∧
      (run_generation_worker g lastA animA ex).countP
        (· == WEvent.clearTaskRef) = 1 ∧
      (run_generation_worker g lastA animA ex).countP
        (· == WEvent.hideLoading) = 1 ∧
      (run_generation_worker g lastA animA ex).countP
        (· == WEvent.focusInput) = 1 := by
  cases ex <;> cases g <;> cases lastA <;> cases animA <;>
    refine ⟨?_, ?_, ?_, ?_⟩ <;>
    simp [run_generation_worker, List.countP_append, List.countP_cons,
      List.countP_nil]

end ChatCli
